import Mathlib

/-!
Verification of `key-distance.py` (KeypointDistance).

The script ranks candidate addresses by weighted average commute time to a
set of weighted key points.  This file gives a shallow embedding of its
components and proves/refutes the frozen claims about them.

Modelling conventions:
* Machine floats are modelled by `ℚ`.  `numpy` float division by zero does
  not raise in the source (it yields `inf`/`nan` with a runtime warning);
  in the model such a division simply returns the junk value `x / 0 = 0` —
  theorems about the zero-divisor case only ever assert absence of failure,
  never the resulting value.
* Effects are made explicit: the network is an oracle indexed by attempt
  number, `random.uniform(0, b)` is `rand i * b` for an oracle
  `rand : Nat → ℚ` (with `0 ≤ rand i < 1` as a hypothesis where needed),
  and each function returns its outbound-request trace alongside its
  result.  Exceptions become `Except` / `Option`.
* Python strings are `List Char` where character-level behaviour matters
  (file parsing) and `String` where they are opaque keys (addresses).
-/

namespace KeyDistance

/-! ### The retry wrapper (`retry`, lines 58–72)

```python
def retry(times, sleep):
    def wrap(f):
        def wrapper(*args, **kwargs):
            for i in range(times-1):
                try:
                    return f(*args, **kwargs)
                except BaseException as e:
                    request_log.warn(e)
                    up_to = 2**i * sleep
                    actual = random.uniform(0, up_to)
                    time.sleep(actual)
            return f(*args, **kwargs)
        return wrapper
    return wrap
```

The wrapped callable is modelled as `f : Nat → Except E A`: invocation
number `i` (0-based) either returns a value or raises an error of the
arbitrary type `E` (the bare `except BaseException` catches every
exception, so the error type is fully abstract). -/

/-- Outcome of one run of the retry wrapper: final result, number of times
the wrapped function was invoked, the exceptions logged at warning level
(one per failed non-final attempt, in order), and the slept durations
(one per failed non-final attempt, in order). -/
structure RetryResult (E A : Type) where
  result : Except E A
  calls : Nat
  warnings : List E
  sleeps : List ℚ

/-- The loop `for i in range(times-1)` of `retry`, with `k` iterations
remaining and `i` the current 0-based attempt index.  A successful call
returns immediately; a failure is logged, `random.uniform(0, 2**i * sleep)`
is slept (modelled as `rand i * (2 ^ i * base)`), and the loop continues.
At fuel 0 the final, unguarded call `f` is performed. -/
def retryGo {E A : Type} (base : ℚ) (rand : Nat → ℚ) (f : Nat → Except E A) :
    Nat → Nat → RetryResult E A
  | 0, i => { result := f i, calls := 1, warnings := [], sleeps := [] }
  | k + 1, i =>
    match f i with
    | Except.ok a => { result := Except.ok a, calls := 1, warnings := [], sleeps := [] }
    | Except.error e =>
      let r := retryGo base rand f k (i + 1)
      { result := r.result, calls := r.calls + 1, warnings := e :: r.warnings,
        sleeps := rand i * (2 ^ i * base) :: r.sleeps }

/-- `retry(times, sleep)` applied to `f`: `times - 1` guarded attempts
followed by one final unguarded attempt. -/
def retry {E A : Type} (times : Nat) (base : ℚ) (rand : Nat → ℚ)
    (f : Nat → Except E A) : RetryResult E A :=
  retryGo base rand f (times - 1) 0

end KeyDistance

namespace KeyDistance

/-- Claim C2: for every operation wrapped by `retry` with attempt cap 3
(and backoff base 2.0, as at both use sites): the operation is invoked at
most 3 times; if attempt `i` succeeds (all earlier ones having failed) its
result is returned after exactly `i + 1` invocations, with one warning per
failed attempt and one sleep per failed attempt whose duration lies in
`[0, backoff_base * 2^j)` for the 0-based attempt index `j`; if all 3
attempts fail, the last error propagates after exactly 3 invocations and
2 warnings. -/
theorem retry_policy_C2 {E A : Type} (f : Nat → Except E A) (rand : Nat → ℚ)
    (es : Nat → E) (hrand : ∀ j, 0 ≤ rand j ∧ rand j < 1) :
    (retry 3 2 rand f).calls ≤ 3 ∧
    (∀ i a, i < 3 → (∀ j, j < i → f j = Except.error (es j)) →
      f i = Except.ok a →
      (retry 3 2 rand f).result = Except.ok a ∧
      (retry 3 2 rand f).calls = i + 1 ∧
      (retry 3 2 rand f).warnings = (List.range i).map es ∧
      (retry 3 2 rand f).sleeps = (List.range i).map (fun j => rand j * (2 ^ j * 2)) ∧
      (∀ j, j < i → 0 ≤ rand j * (2 ^ j * 2) ∧ rand j * (2 ^ j * 2) < 2 * 2 ^ j)) ∧
    (∀ e2, (∀ j, j < 2 → f j = Except.error (es j)) → f 2 = Except.error e2 →
      (retry 3 2 rand f).result = Except.error e2 ∧
      (retry 3 2 rand f).calls = 3 ∧
      (retry 3 2 rand f).warnings = [es 0, es 1]) := by
  have hsleep : ∀ j : Nat, 0 ≤ rand j * (2 ^ j * 2) ∧ rand j * (2 ^ j * 2) < 2 * 2 ^ j := by
    intro j
    constructor
    · exact mul_nonneg (hrand j).1 (by positivity)
    · have h2 : (2 : ℚ) ^ j * 2 = 2 * 2 ^ j := by ring
      rw [h2]
      exact mul_lt_of_lt_one_left (by positivity) (hrand j).2
  refine ⟨?_, ?_, ?_⟩
  · rcases h0 : f 0 with e0 | a0
    · rcases h1 : f 1 with e1 | a1
      · simp [retry, retryGo, h0, h1]
      · simp [retry, retryGo, h0, h1]
    · simp [retry, retryGo, h0]
  · intro i a hi hfail hok
    interval_cases i
    · refine ⟨?_, ?_, ?_, ?_, fun j hj => hsleep j⟩ <;>
        simp [retry, retryGo, hok]
    · have h0 := hfail 0 (by norm_num)
      refine ⟨?_, ?_, ?_, ?_, fun j hj => hsleep j⟩ <;>
        simp [retry, retryGo, h0, hok, List.range_succ]
    · have h0 := hfail 0 (by norm_num)
      have h1 := hfail 1 (by norm_num)
      refine ⟨?_, ?_, ?_, ?_, fun j hj => hsleep j⟩ <;>
        simp [retry, retryGo, h0, h1, hok, List.range_succ]
  · intro e2 hfail h2
    have h0 := hfail 0 (by norm_num)
    have h1 := hfail 1 (by norm_num)
    simp [retry, retryGo, h0, h1, h2]

/-- Witness for C2: a provider failing twice then succeeding returns the
success after 3 calls with warnings `[0, 1]`; a provider failing three
times propagates the final error. -/
theorem retry_policy_C2_witness :
    (retry 3 2 (fun _ => 0) (fun i => if i < 2 then Except.error i else Except.ok 99)).result
      = Except.ok 99 ∧
    (retry 3 2 (fun _ => 0) (fun i => if i < 2 then Except.error i else Except.ok 99)).warnings
      = [0, 1] ∧
    (retry 3 2 (fun _ => 0) (fun i => (Except.error i : Except Nat Nat))).result
      = Except.error 2 := by
  have hr : ∀ j : Nat, (0 : ℚ) ≤ (fun _ : Nat => (0 : ℚ)) j ∧ (fun _ : Nat => (0 : ℚ)) j < 1 := by
    intro j; constructor <;> norm_num
  have h1 := retry_policy_C2 (fun i => if i < 2 then Except.error i else Except.ok 99)
    (fun _ => 0) id hr
  have h2 := retry_policy_C2 (fun i => (Except.error i : Except Nat Nat))
    (fun _ => 0) id hr
  have hs := h1.2.1 2 99 (by norm_num) (fun j hj => by interval_cases j <;> rfl) (by rfl)
  have hf := h2.2.2 2 (fun j hj => rfl) rfl
  refine ⟨hs.1, ?_, hf.1⟩
  have hw := hs.2.2.1
  simpa [List.range_succ] using hw

/-- Claim C10: the retry wrapper catches every exception type whatsoever
(the source catches bare `BaseException`; correspondingly the error type
`E` here is fully abstract).  Hence for any wrapped operation: the only
error that can escape the wrapper is the one raised by the final (third)
attempt, and any error raised by a non-final attempt is logged as a
warning and followed by a further invocation. -/
theorem retry_catches_all_C10 {E A : Type} (f : Nat → Except E A) (rand : Nat → ℚ) :
    (∀ e, (retry 3 2 rand f).result = Except.error e →
      f 2 = Except.error e ∧ (retry 3 2 rand f).calls = 3) ∧
    (∀ i e, i < 2 → (∀ j, j < i → ∀ a, ¬ f j = Except.ok a) →
      f i = Except.error e →
      e ∈ (retry 3 2 rand f).warnings ∧ i + 2 ≤ (retry 3 2 rand f).calls) := by
  constructor
  · intro e he
    rcases h0 : f 0 with e0 | a0
    · rcases h1 : f 1 with e1 | a1
      · simp [retry, retryGo, h0, h1] at he ⊢
        exact he
      · simp [retry, retryGo, h0, h1] at he
    · simp [retry, retryGo, h0] at he
  · intro i e hi hprev he
    interval_cases i
    · rcases h1 : f 1 with e1 | a1 <;> simp [retry, retryGo, he, h1]
    · rcases h0 : f 0 with e0 | a0
      · simp [retry, retryGo, h0, he]
      · exact absurd h0 (hprev 0 (by norm_num) a0)

/-- Witness for C10: with an operation that raises on every attempt, the
escaping error is the final attempt's, after 3 calls, and the error of the
failed second attempt was logged. -/
theorem retry_catches_all_C10_witness :
    (fun i => (Except.error i : Except Nat Nat)) 2 = Except.error 2 ∧
    (retry 3 2 (fun _ => 0) (fun i => (Except.error i : Except Nat Nat))).calls = 3 ∧
    1 ∈ (retry 3 2 (fun _ => 0) (fun i => (Except.error i : Except Nat Nat))).warnings := by
  have h := retry_catches_all_C10 (fun i => (Except.error i : Except Nat Nat)) (fun _ => 0)
  have h1 := h.1 2 (by rfl)
  have h2 := h.2 1 1 (by norm_num) (fun j hj a hc => Except.noConfusion hc) (by rfl)
  exact ⟨h1.1, h1.2, h2.1⟩

/-! ### Distance acquisition (`transit_distance`, `load_distances_transit`,
`load_pairwise_distances`, lines 74–125)

The network is an oracle indexed by attempt number; each function also
returns the trace of outbound requests it issued. -/

/-- An outbound request recorded in the trace: either one directions-API
call for a single (origin, destination) pair (transit strategy, line 80),
or one distance-matrix call carrying the full origin list, the full
destination list and the mode (batched strategy, line 105). -/
inductive Request : Type
  | transitReq (orig dest : String)
  | batchReq (origins dests : List String) (mode : String)
deriving DecidableEq

/-- `transit_distance` (lines 74–84): one directions-API request per
invocation, wrapped in `retry(3, 2.0)`.  The fetch plus the JSON
extraction `result['routes'][0]['legs'][0]['duration']['value']` is the
oracle `orc`, indexed by attempt number. -/
def transit_distance {E : Type} (orc : Nat → String → String → Except E ℚ)
    (rand : Nat → ℚ) (orig dest : String) : RetryResult E ℚ :=
  retry 3 2 rand (fun i => orc i orig dest)

/-- Inner loop of `load_distances_transit` (lines 93–94): one matrix cell
per destination, in order; an uncaught exception aborts the computation. -/
def loadTransitRow {E : Type} (orc : Nat → String → String → Except E ℚ)
    (rand : Nat → ℚ) (orig : String) :
    List String → Except E (List ℚ) × List Request
  | [] => (Except.ok [], [])
  | d :: ds =>
    let r := transit_distance orc rand orig d
    let reqs := List.replicate r.calls (Request.transitReq orig d)
    match r.result with
    | Except.error e => (Except.error e, reqs)
    | Except.ok v =>
      let rest := loadTransitRow orc rand orig ds
      match rest.1 with
      | Except.error e => (Except.error e, reqs ++ rest.2)
      | Except.ok vs => (Except.ok (v :: vs), reqs ++ rest.2)

/-- `load_distances_transit` (lines 88–96): strictly sequential nested
loops, origins outer, destinations inner. -/
def load_distances_transit {E : Type} (orc : Nat → String → String → Except E ℚ)
    (rand : Nat → ℚ) :
    List String → List String → Except E (List (List ℚ)) × List Request
  | [], _ => (Except.ok [], [])
  | o :: os, dests =>
    let row := loadTransitRow orc rand o dests
    match row.1 with
    | Except.error e => (Except.error e, row.2)
    | Except.ok vs =>
      let rest := load_distances_transit orc rand os dests
      match rest.1 with
      | Except.error e => (Except.error e, row.2 ++ rest.2)
      | Except.ok mat => (Except.ok (vs :: mat), row.2 ++ rest.2)

/-- The expected transit trace: one request per (origin, destination)
pair, origins as the outer loop, destinations as the inner loop. -/
def allPairs : List String → List String → List Request
  | [], _ => []
  | o :: os, dests => dests.map (fun d => Request.transitReq o d) ++ allPairs os dests

/-- JSON values as returned by `simplejson.loads`. -/
inductive Json : Type
  | null
  | bool (b : Bool)
  | num (q : ℚ)
  | str (s : String)
  | arr (elems : List Json)
  | obj (fields : List (String × Json))

def rowsKey : String := "rows"

def elementsKey : String := "elements"

def durationKey : String := "duration"

def valueKey : String := "value"

/-- `j[k]` on a JSON object (Python dict indexing); `none` models the
`KeyError`/`TypeError` raised when the key is absent or `j` is not an
object. -/
def getField : Json → String → Option Json
  | Json.obj fields, k => fields.lookup k
  | _, _ => none

/-- Iterating a JSON value as a list (`for x in v`); modelled for JSON
arrays, the shape the mapping API returns for `rows` and `elements`. -/
def asArr : Json → Option (List Json)
  | Json.arr xs => some xs
  | _ => none

/-- A numeric JSON value, as required when assigning
`el['duration']['value']` into a float matrix cell. -/
def asNum : Json → Option ℚ
  | Json.num q => some q
  | _ => none

/-- `el['duration']['value']` as a number (line 121). -/
def elDuration (el : Json) : Option ℚ :=
  match getField el durationKey with
  | none => none
  | some d =>
    match getField d valueKey with
    | none => none
    | some v => asNum v

/-- `distances[i,j] = v` on the numpy matrix: in-bounds assignment; `none`
models the `IndexError` on an out-of-range index. -/
def setCell (mat : List (List ℚ)) (i j : Nat) (v : ℚ) : Option (List (List ℚ)) :=
  match mat.get? i with
  | none => none
  | some row => if j < row.length then some (mat.set i (row.set j v)) else none

/-- Inner parse loop (lines 120–121): `for j, el in
enumerate(row['elements']): distances[i,j] = el['duration']['value']`,
starting at column index `j`. -/
def fillRow : List (List ℚ) → Nat → Nat → List Json → Option (List (List ℚ))
  | mat, _, _, [] => some mat
  | mat, i, j, el :: rest =>
    match elDuration el with
    | none => none
    | some v =>
      match setCell mat i j v with
      | none => none
      | some mat2 => fillRow mat2 i (j + 1) rest

/-- Outer parse loop (lines 119–121): `for i, row in
enumerate(result['rows'])`, starting at row index `i`. -/
def fillRows : List (List ℚ) → Nat → List Json → Option (List (List ℚ))
  | mat, _, [] => some mat
  | mat, i, row :: rest =>
    match getField row elementsKey with
    | none => none
    | some elemsJ =>
      match asArr elemsJ with
      | none => none
      | some els =>
        match fillRow mat i 0 els with
        | none => none
        | some mat2 => fillRows mat2 (i + 1) rest

/-- `numpy.zeros((m, n))` (line 118). -/
def zerosMat (m n : Nat) : List (List ℚ) := List.replicate m (List.replicate n 0)

/-- The parse of the batch response (lines 118–122): a fresh zero matrix
filled cell by cell from `result['rows']`.  `none` models the exception
caught by the bare `except:` at line 123 (missing key, non-list value,
non-numeric duration, index out of range). -/
def parseDistances (m n : Nat) (resp : Json) : Option (List (List ℚ)) :=
  match getField resp rowsKey with
  | none => none
  | some rowsJ =>
    match asArr rowsJ with
    | none => none
    | some rows => fillRows (zerosMat m n) 0 rows

/-- Failure of `load_pairwise_distances`: either the retried fetch
exhausted its attempts (the last transport/decode error propagates), or
populating the matrix from the response raised (the bare `except:` at
line 123 re-raises after dumping the response). -/
inductive BatchError (E : Type) : Type
  | transport (e : E)
  | shape
deriving DecidableEq

/-- Outcome of `load_pairwise_distances`: result, outbound request trace,
and the raw response dumped by `pprint.pprint` (line 124) when matrix
population failed. -/
structure BatchOutcome (E : Type) where
  result : Except (BatchError E) (List (List ℚ))
  requests : List Request
  dumped : Option Json

/-- The non-transit branch of `load_pairwise_distances` (lines 103–125):
`get_response` — one batch request per attempt, wrapped in
`retry(3, 2.0)`; the oracle `orcB` is the fetch plus `simplejson.loads` —
followed by the matrix-population loop, which runs once, outside the
retry. -/
def load_pairwise_batch {E : Type} (orcB : Nat → Except E Json) (rand : Nat → ℚ)
    (origins dests : List String) (mode : String) : BatchOutcome E :=
  let r := retry 3 2 rand orcB
  let reqs := List.replicate r.calls (Request.batchReq origins dests mode)
  match r.result with
  | Except.error e =>
    { result := Except.error (BatchError.transport e), requests := reqs, dumped := none }
  | Except.ok resp =>
    match parseDistances origins.length dests.length resp with
    | some mat => { result := Except.ok mat, requests := reqs, dumped := none }
    | none =>
      { result := Except.error BatchError.shape, requests := reqs, dumped := some resp }

/-- `load_pairwise_distances` (lines 99–125): dispatch on the mode —
`transit` uses the pairwise directions API, every other mode the batched
distance-matrix API. -/
def load_pairwise_distances {E : Type} (orcP : Nat → String → String → Except E ℚ)
    (orcB : Nat → Except E Json) (rand : Nat → ℚ)
    (origins dests : List String) (mode : String) : BatchOutcome E :=
  if mode = "transit" then
    let r := load_distances_transit orcP rand origins dests
    { result := Except.mapError BatchError.transport r.1, requests := r.2, dumped := none }
  else load_pairwise_batch orcB rand origins dests mode

lemma transit_distance_first_ok {E : Type} (orc : Nat → String → String → Except E ℚ)
    (rand : Nat → ℚ) (orig dest : String) (v : ℚ)
    (h : orc 0 orig dest = Except.ok v) :
    transit_distance orc rand orig dest = ⟨Except.ok v, 1, [], []⟩ := by
  simp [transit_distance, retry, retryGo, h]

lemma loadTransitRow_ok {E : Type} (orc : Nat → String → String → Except E ℚ)
    (rand : Nat → ℚ) (g : String → String → ℚ) (orig : String)
    (dests : List String) (h : ∀ d ∈ dests, orc 0 orig d = Except.ok (g orig d)) :
    loadTransitRow orc rand orig dests
      = (Except.ok (dests.map (g orig)),
         dests.map (fun d => Request.transitReq orig d)) := by
  induction dests with
  | nil => rfl
  | cons d ds ih =>
    have hd := h d (by simp)
    have hrest := ih (fun x hx => h x (by simp [hx]))
    simp [loadTransitRow, transit_distance_first_ok orc rand orig d _ hd, hrest,
      List.replicate]

lemma load_distances_transit_ok {E : Type} (orc : Nat → String → String → Except E ℚ)
    (rand : Nat → ℚ) (g : String → String → ℚ) (origins dests : List String)
    (h : ∀ o ∈ origins, ∀ d ∈ dests, orc 0 o d = Except.ok (g o d)) :
    load_distances_transit orc rand origins dests
      = (Except.ok (origins.map (fun o => dests.map (g o))), allPairs origins dests) := by
  induction origins with
  | nil => rfl
  | cons o os ih =>
    have hrow := loadTransitRow_ok orc rand g o dests (h o (by simp))
    have hrest := ih (fun x hx => h x (by simp [hx]))
    simp [load_distances_transit, hrow, hrest, allPairs]

lemma allPairs_length (origins dests : List String) :
    (allPairs origins dests).length = origins.length * dests.length := by
  induction origins with
  | nil => simp [allPairs]
  | cons o os ih => simp [allPairs, ih]; ring

/-- Claim C3: in transit mode (with the provider succeeding on each first
attempt, as with a mock), the distance provider issues exactly m·n
pairwise requests — one per (origin, destination) pair, sequentially,
origins as the outer loop and destinations as the inner loop — and cell
[i][j] of the returned matrix is the single duration returned for the
pair (origin_i, destination_j). -/
theorem transit_pairwise_requests_C3 {E : Type}
    (orcP : Nat → String → String → Except E ℚ) (orcB : Nat → Except E Json)
    (rand : Nat → ℚ) (origins dests : List String) (g : String → String → ℚ)
    (hok : ∀ o ∈ origins, ∀ d ∈ dests, orcP 0 o d = Except.ok (g o d)) :
    (load_pairwise_distances orcP orcB rand origins dests "transit").result
      = Except.ok (origins.map (fun o => dests.map (g o))) ∧
    (load_pairwise_distances orcP orcB rand origins dests "transit").requests
      = allPairs origins dests ∧
    (load_pairwise_distances orcP orcB rand origins dests "transit").requests.length
      = origins.length * dests.length ∧
    (∀ i j, i < origins.length → j < dests.length →
      ((origins.map (fun o => dests.map (g o))).getD i []).getD j 0
        = g (origins.getD i ("" : String)) (dests.getD j ("" : String))) := by
  have hload := load_distances_transit_ok orcP rand g origins dests hok
  refine ⟨?_, ?_, ?_, ?_⟩
  · simp [load_pairwise_distances, hload, Except.mapError]
  · simp [load_pairwise_distances, hload]
  · simp [load_pairwise_distances, hload, allPairs_length]
  · intro i j hi hj
    simp [List.getD_eq_getElem?_getD, List.getElem?_map,
      List.getElem?_eq_getElem hi, List.getElem?_eq_getElem hj]

/-- Witness for C3: two origins and one destination, a provider answering
42 seconds on every first attempt: two requests, one per pair, and the
2×1 matrix of the returned durations. -/
theorem transit_pairwise_requests_C3_witness :
    (load_pairwise_distances (fun _ _ _ => Except.ok 42)
        (fun _ => Except.error ()) (fun _ => 0) [("A" : String), ("B" : String)]
        [("C" : String)] "transit").result
      = Except.ok ([("A" : String), ("B" : String)].map
          (fun _ => [("C" : String)].map (fun _ => (42 : ℚ)))) ∧
    (load_pairwise_distances (fun _ _ _ => Except.ok 42)
        (fun _ => Except.error ()) (fun _ => 0) [("A" : String), ("B" : String)]
        [("C" : String)] "transit").requests
      = allPairs [("A" : String), ("B" : String)] [("C" : String)] ∧
    (load_pairwise_distances (fun _ _ _ => Except.ok 42)
        (fun _ => Except.error ()) (fun _ => 0) [("A" : String), ("B" : String)]
        [("C" : String)] "transit").requests.length = 2 := by
  have h := transit_pairwise_requests_C3 (E := Unit) (fun _ _ _ => Except.ok 42)
    (fun _ => Except.error ()) (fun _ => 0) [("A" : String), ("B" : String)]
    [("C" : String)] (fun _ _ => 42) (fun _ _ _ _ => rfl)
  exact ⟨h.1, h.2.1, h.2.2.1⟩

lemma setCell_of_get {mat : List (List ℚ)} {i : Nat} {cur : List ℚ} (j : Nat) (v : ℚ)
    (h : mat[i]? = some cur) (hj : j < cur.length) :
    setCell mat i j v = some (mat.set i (cur.set j v)) := by
  simp [setCell, h, hj]

/-- Effect of the inner parse loop when every element exposes a numeric
`duration.value` and the element count fits the remaining row width:
row `i` gets its cells from column `j` on overwritten, other rows are
untouched. -/
lemma fillRow_spec (els : List Json) : ∀ (mat : List (List ℚ)) (i j : Nat)
    (cur : List ℚ) (e : Nat → ℚ),
    mat[i]? = some cur → cur.length = j + els.length →
    (∀ idx (h : idx < els.length), elDuration (els.get ⟨idx, h⟩) = some (e idx)) →
    ∃ mat2, fillRow mat i j els = some mat2 ∧
      mat2.length = mat.length ∧
      mat2[i]? = some (cur.take j ++ (List.range els.length).map e) ∧
      (∀ p, p ≠ i → mat2[p]? = mat[p]?) := by
  induction els with
  | nil =>
    intro mat i j cur e hget hlen _
    refine ⟨mat, rfl, rfl, ?_, fun p _ => rfl⟩
    simp [hget, List.take_of_length_le (show cur.length ≤ j by simp at hlen; omega)]
  | cons el rest ih =>
    intro mat i j cur e hget hlen helem
    have hv : elDuration el = some (e 0) := helem 0 (by simp)
    have hj : j < cur.length := by simp at hlen; omega
    have hi : i < mat.length := by
      by_contra hcon
      rw [List.getElem?_eq_none (by omega)] at hget
      exact Option.noConfusion hget
    have hset := setCell_of_get j (e 0) hget hj
    have hget2 : (mat.set i (cur.set j (e 0)))[i]? = some (cur.set j (e 0)) :=
      List.getElem?_set_eq_of_lt _ hi
    have hlen2 : (cur.set j (e 0)).length = (j + 1) + rest.length := by
      simp [List.length_set]; simp at hlen; omega
    have helem2 : ∀ idx (h : idx < rest.length),
        elDuration (rest.get ⟨idx, h⟩) = some (e (idx + 1)) := by
      intro idx h
      exact helem (idx + 1) (by simpa using Nat.succ_lt_succ h)
    obtain ⟨mat2, hfill, hlenm, hrow, hother⟩ :=
      ih (mat.set i (cur.set j (e 0))) i (j + 1) (cur.set j (e 0))
        (fun t => e (t + 1)) hget2 hlen2 helem2
    refine ⟨mat2, ?_, ?_, ?_, ?_⟩
    · simp [fillRow, hv, hset, hfill]
    · simp [hlenm, List.length_set]
    · rw [hrow]
      congr 1
      have htake : (cur.set j (e 0)).take (j + 1) = cur.take j ++ [e 0] := by
        rw [List.set_eq_take_cons_drop _ hj, List.take_append_eq_append_take,
          List.take_take, List.length_take]
        have h1 : min (j + 1) j = j := by omega
        have h2 : j + 1 - min j cur.length = 1 := by omega
        rw [h1, h2]
        simp
      rw [htake]
      simp only [List.length_cons, List.range_succ_eq_map]
      simp [List.append_assoc, List.map_map, Function.comp, Nat.succ_eq_add_one]
    · intro p hp
      rw [hother p hp, List.getElem?_set_ne (Ne.symm hp)]

/-- Effect of the outer parse loop on rows `k, k+1, …` when each response
row has an `elements` array of width `n` with numeric durations, and the
corresponding matrix rows are still all-zero and of width `n`. -/
lemma fillRows_spec (rows : List Json) : ∀ (mat : List (List ℚ)) (k n : Nat)
    (d : Nat → Nat → ℚ),
    (∀ idx (h : idx < rows.length), ∃ els : List Json,
        getField (rows.get ⟨idx, h⟩) elementsKey = some (Json.arr els) ∧
        els.length = n ∧
        ∀ jdx (hj : jdx < els.length),
          elDuration (els.get ⟨jdx, hj⟩) = some (d (k + idx) jdx)) →
    (∀ idx, idx < rows.length → mat[k + idx]? = some (List.replicate n 0)) →
    ∃ mat2, fillRows mat k rows = some mat2 ∧
      mat2.length = mat.length ∧
      (∀ idx, idx < rows.length →
        mat2[k + idx]? = some ((List.range n).map (d (k + idx)))) ∧
      (∀ p, p < k ∨ k + rows.length ≤ p → mat2[p]? = mat[p]?) := by
  induction rows with
  | nil =>
    intro mat k n d _ _
    exact ⟨mat, rfl, rfl, fun idx h => absurd h (by simp), fun p _ => rfl⟩
  | cons row rest ih =>
    intro mat k n d hels hzero
    obtain ⟨els, hgetE0, hlenE, hdur⟩ := hels 0 (by simp)
    have hgetE : getField row elementsKey = some (Json.arr els) := hgetE0
    have hcur : mat[k]? = some (List.replicate n 0) := by
      simpa using hzero 0 (by simp)
    obtain ⟨mat1, hfill1, hlen1, hrow1, hother1⟩ :=
      fillRow_spec els mat k 0 (List.replicate n 0) (fun jdx => d k jdx) hcur
        (by simp [hlenE]) (by simpa using hdur)
    have hels2 : ∀ idx (h : idx < rest.length), ∃ els : List Json,
        getField (rest.get ⟨idx, h⟩) elementsKey = some (Json.arr els) ∧
        els.length = n ∧
        ∀ jdx (hj : jdx < els.length),
          elDuration (els.get ⟨jdx, hj⟩) = some (d ((k + 1) + idx) jdx) := by
      intro idx h
      have := hels (idx + 1) (by simpa using Nat.succ_lt_succ h)
      have harith : k + (idx + 1) = (k + 1) + idx := by omega
      rw [harith] at this
      exact this
    have hzero2 : ∀ idx, idx < rest.length →
        mat1[(k + 1) + idx]? = some (List.replicate n 0) := by
      intro idx h
      rw [hother1 _ (by omega)]
      have harith : (k + 1) + idx = k + (idx + 1) := by omega
      rw [harith]
      exact hzero (idx + 1) (by simpa using Nat.succ_lt_succ h)
    obtain ⟨mat2, hfill2, hlen2, hrow2, hother2⟩ := ih mat1 (k + 1) n d hels2 hzero2
    refine ⟨mat2, ?_, ?_, ?_, ?_⟩
    · simp [fillRows, hgetE, asArr, hfill1, hfill2]
    · rw [hlen2, hlen1]
    · intro idx h
      match idx with
      | 0 =>
        rw [hother2 (k + 0) (by omega), Nat.add_zero, hrow1]
        simp [hlenE]
      | Nat.succ m =>
        have harith : k + (m + 1) = (k + 1) + m := by omega
        rw [harith]
        exact hrow2 m (by simpa using h)
    · intro p hp
      simp only [List.length_cons] at hp
      rw [hother2 p (by omega), hother1 p (by omega)]

/-- The parse of a response whose `rows` field is an m-long array of rows,
each with an n-long `elements` array whose entries expose the numeric
duration `d i j`: the produced matrix is exactly `[[d i j]]`. -/
lemma parseDistances_spec (m n : Nat) (resp : Json) (rowsJ : List Json)
    (d : Nat → Nat → ℚ)
    (hresp : getField resp rowsKey = some (Json.arr rowsJ))
    (hm : rowsJ.length = m)
    (hels : ∀ idx (h : idx < rowsJ.length), ∃ els : List Json,
        getField (rowsJ.get ⟨idx, h⟩) elementsKey = some (Json.arr els) ∧
        els.length = n ∧
        ∀ jdx (hj : jdx < els.length),
          elDuration (els.get ⟨jdx, hj⟩) = some (d idx jdx)) :
    parseDistances m n resp
      = some ((List.range m).map (fun i => (List.range n).map (d i))) := by
  have hzero : ∀ idx, idx < rowsJ.length →
      (zerosMat m n)[0 + idx]? = some (List.replicate n 0) := by
    intro idx h
    simp [zerosMat, List.getElem?_replicate]
    omega
  obtain ⟨mat2, hfill, hlen, hrow, _⟩ :=
    fillRows_spec rowsJ (zerosMat m n) 0 n d (by simpa using hels) hzero
  have hmat : mat2 = (List.range m).map (fun i => (List.range n).map (d i)) := by
    apply List.ext_get?
    intro p
    rw [List.get?_eq_getElem?, List.get?_eq_getElem?]
    by_cases hp : p < m
    · have h1 := hrow p (by omega)
      rw [Nat.zero_add] at h1
      rw [h1, List.getElem?_map, List.getElem?_range hp]
      rfl
    · have hlenz : (zerosMat m n).length = m := by simp [zerosMat]
      rw [List.getElem?_eq_none (by rw [hlen, hlenz]; omega),
        List.getElem?_eq_none (by simp; omega)]
  rw [parseDistances, hresp]
  simpa [asArr, hmat] using hfill

/-- Claim C4: in every non-transit mode (with the fetch succeeding on its
first attempt, as with a mock), the provider issues exactly one outbound
batch request carrying the full origin list and the full destination
list, and returns the m×n matrix whose [i][j] cell is the duration value
of the j-th element of the i-th row of the response, populated row-major. -/
theorem batch_single_request_C4 {E : Type}
    (orcP : Nat → String → String → Except E ℚ) (orcB : Nat → Except E Json)
    (rand : Nat → ℚ) (origins dests : List String) (mode : String)
    (resp : Json) (rowsJ : List Json) (d : Nat → Nat → ℚ)
    (hmode : mode ≠ "transit")
    (hfetch : orcB 0 = Except.ok resp)
    (hresp : getField resp rowsKey = some (Json.arr rowsJ))
    (hm : rowsJ.length = origins.length)
    (hels : ∀ idx (h : idx < rowsJ.length), ∃ els : List Json,
        getField (rowsJ.get ⟨idx, h⟩) elementsKey = some (Json.arr els) ∧
        els.length = dests.length ∧
        ∀ jdx (hj : jdx < els.length),
          elDuration (els.get ⟨jdx, hj⟩) = some (d idx jdx)) :
    (load_pairwise_distances orcP orcB rand origins dests mode).result
      = Except.ok ((List.range origins.length).map
          (fun i => (List.range dests.length).map (d i))) ∧
    (load_pairwise_distances orcP orcB rand origins dests mode).requests
      = [Request.batchReq origins dests mode] ∧
    (load_pairwise_distances orcP orcB rand origins dests mode).dumped = none := by
  have hparse :=
    parseDistances_spec origins.length dests.length resp rowsJ d hresp hm hels
  have hretry : retry 3 2 rand orcB = ⟨Except.ok resp, 1, [], []⟩ := by
    simp [retry, retryGo, hfetch]
  refine ⟨?_, ?_, ?_⟩ <;>
    simp [load_pairwise_distances, hmode, load_pairwise_batch, hretry, hparse,
      List.replicate]

/-- A mock response in the shape the distance-matrix API returns: used to
instantiate the theorems about the batch parse at concrete inputs. -/
def mkElement (v : ℚ) : Json :=
  Json.obj [(durationKey, Json.obj [(valueKey, Json.num v)])]

/-- A single response row with the given durations. -/
def mkRow (vs : List ℚ) : Json :=
  Json.obj [(elementsKey, Json.arr (vs.map mkElement))]

/-- A whole mock response with the given duration matrix. -/
def mkResponse (d : List (List ℚ)) : Json :=
  Json.obj [(rowsKey, Json.arr (d.map mkRow))]

/-- Witness for C4: a mock 2×1 response (durations 3600 and 7200) in
driving mode: exactly one batch request, and the matrix matches the
mocked durations at the matching positions. -/
theorem batch_single_request_C4_witness :
    (load_pairwise_distances (E := Unit) (fun _ _ _ => Except.error ())
        (fun _ => Except.ok (mkResponse [[3600], [7200]]))
        (fun _ => 0) [("O1" : String), ("O2" : String)] [("D1" : String)]
        "driving").result
      = Except.ok ((List.range 2).map
          (fun i => (List.range 1).map
            (fun _ => if i = 0 then (3600 : ℚ) else 7200))) ∧
    (load_pairwise_distances (E := Unit) (fun _ _ _ => Except.error ())
        (fun _ => Except.ok (mkResponse [[3600], [7200]]))
        (fun _ => 0) [("O1" : String), ("O2" : String)] [("D1" : String)]
        "driving").requests
      = [Request.batchReq [("O1" : String), ("O2" : String)] [("D1" : String)]
          "driving"] := by
  have hels : ∀ idx (h : idx < ([mkRow [3600], mkRow [7200]] : List Json).length),
      ∃ els : List Json,
        getField (([mkRow [3600], mkRow [7200]] : List Json).get ⟨idx, h⟩)
            elementsKey = some (Json.arr els) ∧
        els.length = ([("D1" : String)] : List String).length ∧
        ∀ jdx (hj : jdx < els.length),
          elDuration (els.get ⟨jdx, hj⟩)
            = some ((fun i _ => if i = 0 then (3600 : ℚ) else 7200) idx jdx) := by
    intro idx h
    have h2 : idx < 2 := by simpa using h
    interval_cases idx
    · refine ⟨[mkElement 3600], rfl, rfl, ?_⟩
      intro jdx hj
      have hz : jdx = 0 := by simpa using hj
      subst hz
      exact (by decide : elDuration (mkElement 3600) = some (3600 : ℚ))
    · refine ⟨[mkElement 7200], rfl, rfl, ?_⟩
      intro jdx hj
      have hz : jdx = 0 := by simpa using hj
      subst hz
      exact (by decide : elDuration (mkElement 7200) = some (7200 : ℚ))
  have h := batch_single_request_C4 (E := Unit) (fun _ _ _ => Except.error ())
    (fun _ => Except.ok (mkResponse [[3600], [7200]]))
    (fun _ => 0) [("O1" : String), ("O2" : String)] [("D1" : String)] "driving"
    (mkResponse [[3600], [7200]]) [mkRow [3600], mkRow [7200]]
    (fun i _ => if i = 0 then (3600 : ℚ) else 7200)
    (by decide) rfl rfl rfl hels
  exact ⟨h.1, h.2.1⟩

/-- Counterexample to claim C5: a batch response whose `rows` array is
empty — every expected row missing — does not make the call fail with a
data-format error: the population loop iterates zero times and the call
returns the all-zero 1×1 matrix with nothing dumped. -/
theorem batch_missing_rows_C5_cex :
    (load_pairwise_distances (E := Unit) (fun _ _ _ => Except.error ())
        (fun _ => Except.ok (Json.obj [(rowsKey, Json.arr [])])) (fun _ => 0)
        [("A" : String)] [("B" : String)] "driving").result
      = Except.ok [[0]] ∧
    (load_pairwise_distances (E := Unit) (fun _ _ _ => Except.error ())
        (fun _ => Except.ok (Json.obj [(rowsKey, Json.arr [])])) (fun _ => 0)
        [("A" : String)] [("B" : String)] "driving").dumped = none := by
  constructor <;> rfl

/-- Claim C5 (amended): in a non-transit mode, when populating the matrix
from the fetched response raises (missing `rows`/`elements`/`duration`
key, a non-list where a list is iterated, a non-numeric duration, or more
rows/elements than the matrix holds), the call fails and the raw response
is dumped for diagnosis before the error propagates.  The population step
runs outside the retry wrapper: exactly the one successful fetch request
was issued, and the shape failure itself is never retried.  (A response
with fewer rows or elements than expected does not fail; unfilled cells
remain 0.) -/
theorem batch_shape_failure_C5_amended {E : Type}
    (orcP : Nat → String → String → Except E ℚ) (orcB : Nat → Except E Json)
    (rand : Nat → ℚ) (origins dests : List String) (mode : String) (resp : Json)
    (hmode : mode ≠ "transit")
    (hfetch : orcB 0 = Except.ok resp)
    (hbad : parseDistances origins.length dests.length resp = none) :
    (load_pairwise_distances orcP orcB rand origins dests mode).result
      = Except.error BatchError.shape ∧
    (load_pairwise_distances orcP orcB rand origins dests mode).dumped
      = some resp ∧
    (load_pairwise_distances orcP orcB rand origins dests mode).requests
      = [Request.batchReq origins dests mode] := by
  have hretry : retry 3 2 rand orcB = ⟨Except.ok resp, 1, [], []⟩ := by
    simp [retry, retryGo, hfetch]
  refine ⟨?_, ?_, ?_⟩ <;>
    simp [load_pairwise_distances, hmode, load_pairwise_batch, hretry, hbad,
      List.replicate]

/-- Witness for the amended C5: a response whose single row lacks the
`elements` key fails, dumps the raw response, and issued exactly one
request (no retry of the shape failure). -/
theorem batch_shape_failure_C5_witness :
    (load_pairwise_distances (E := Unit) (fun _ _ _ => Except.error ())
        (fun _ => Except.ok (Json.obj [(rowsKey, Json.arr [Json.obj []])]))
        (fun _ => 0) [("A" : String)] [("B" : String)] "driving").result
      = Except.error BatchError.shape ∧
    (load_pairwise_distances (E := Unit) (fun _ _ _ => Except.error ())
        (fun _ => Except.ok (Json.obj [(rowsKey, Json.arr [Json.obj []])]))
        (fun _ => 0) [("A" : String)] [("B" : String)] "driving").dumped
      = some (Json.obj [(rowsKey, Json.arr [Json.obj []])]) ∧
    (load_pairwise_distances (E := Unit) (fun _ _ _ => Except.error ())
        (fun _ => Except.ok (Json.obj [(rowsKey, Json.arr [Json.obj []])]))
        (fun _ => 0) [("A" : String)] [("B" : String)] "driving").requests
      = [Request.batchReq [("A" : String)] [("B" : String)] "driving"] := by
  have h := batch_shape_failure_C5_amended (E := Unit) (fun _ _ _ => Except.error ())
    (fun _ => Except.ok (Json.obj [(rowsKey, Json.arr [Json.obj []])]))
    (fun _ => 0) [("A" : String)] [("B" : String)] "driving"
    (Json.obj [(rowsKey, Json.arr [Json.obj []])]) (by decide) rfl (by decide)
  exact h

/-! ### Scoring (`keypoint_optimize`, lines 127–131)

```python
def keypoint_optimize(options, keyspots, weights, mode):
    durations = load_pairwise_distances(options, keyspots, mode)
    weighted = durations.dot(weights)
    return dict(zip(options, weighted/60/60/weights.sum()))
```

The scoring step (lines 130–131) is factored out with the duration matrix
as an argument; the Python dict is modelled as the association list
`zip(options, scores)` it is built from. -/

/-- numpy dot product of one matrix row with the weight vector (equal
lengths). -/
def dotRow (row weights : List ℚ) : ℚ :=
  (List.zipWith (fun a b => a * b) row weights).sum

/-- The scoring step of `keypoint_optimize` (lines 130–131) on a duration
matrix with `n` columns: `durations.dot(weights)` raises a numpy
`ValueError` when the weight vector's length differs from `n` (modelled
as `Except.error ()`); otherwise each row's weighted sum is divided by
60, by 60 again, and by `weights.sum()`.  numpy float division by a zero
sum does not raise — it yields non-finite values (standing in for them,
`ℚ` division by zero gives the junk value 0) and the scores are still
returned. -/
def keypoint_scores (options : List String) (n : Nat) (durations : List (List ℚ))
    (weights : List ℚ) : Except Unit (List (String × ℚ)) :=
  if weights.length = n then
    Except.ok (options.zip (durations.map
      (fun row => dotRow row weights / 60 / 60 / weights.sum)))
  else Except.error ()

/-- Errors escaping `keypoint_optimize`. -/
inductive RunError (E : Type) : Type
  | load (e : BatchError E)
  | weights

/-- `keypoint_optimize` (lines 127–131): load the duration matrix for
(options × keyspots), then score it against the weights. -/
def keypoint_optimize {E : Type} (orcP : Nat → String → String → Except E ℚ)
    (orcB : Nat → Except E Json) (rand : Nat → ℚ) (options keyspots : List String)
    (weights : List ℚ) (mode : String) :
    Except (RunError E) (List (String × ℚ)) :=
  match (load_pairwise_distances orcP orcB rand options keyspots mode).result with
  | Except.error e => Except.error (RunError.load e)
  | Except.ok durations =>
    match keypoint_scores options keyspots.length durations weights with
    | Except.error _ => Except.error RunError.weights
    | Except.ok scores => Except.ok scores

lemma dotRow_eq_sum (row weights : List ℚ) (h : row.length = weights.length) :
    dotRow row weights
      = ∑ j in Finset.range weights.length, row.getD j 0 * weights.getD j 0 := by
  induction row generalizing weights with
  | nil =>
    have : weights = [] := List.length_eq_zero.mp (by simpa using h.symm)
    subst this
    simp [dotRow]
  | cons a as ihr =>
    match weights with
    | [] => simp at h
    | b :: bs =>
      have hlen : as.length = bs.length := by simpa using h
      have ih := ihr bs hlen
      simp only [List.length_cons, Finset.sum_range_succ']
      simp only [List.getD_cons_succ, List.getD_cons_zero]
      rw [← ih]
      simp [dotRow, List.zipWith]
      ring

lemma getD_zip (l1 : List String) (l2 : List ℚ) (i : Nat)
    (h1 : i < l1.length) (h2 : i < l2.length) :
    (l1.zip l2).getD i (("" : String), 0)
      = (l1.getD i ("" : String), l2.getD i 0) := by
  induction l1 generalizing l2 i with
  | nil => simp at h1
  | cons a as ih =>
    match l2 with
    | [] => simp at h2
    | b :: bs =>
      match i with
      | 0 => simp
      | Nat.succ m =>
        simp only [List.zip_cons_cons, List.getD_cons_succ]
        exact ih bs m (by simpa using h1) (by simpa using h2)

/-- Claim C1: for every m×n duration matrix and every weight vector of
length n with positive sum, the scoring step maps the i-th origin to
(Σ_j durations[i][j]·weights[j]) / 3600 / (Σ_j weights[j]) — its
weighted-mean commute time in hours. -/
theorem scoring_weighted_mean_C1 (options : List String) (n : Nat)
    (durations : List (List ℚ)) (weights : List ℚ) (i : Nat)
    (hd : durations.length = options.length)
    (hrow : ∀ r ∈ durations, r.length = n)
    (hw : weights.length = n)
    (_hsum : 0 < weights.sum)
    (hi : i < options.length) :
    (keypoint_scores options n durations weights).isOk = true ∧
    ((keypoint_scores options n durations weights).toOption.getD []).getD i
        (("" : String), 0)
      = (options.getD i ("" : String),
         (∑ j in Finset.range n,
             (durations.getD i []).getD j 0 * weights.getD j 0)
           / 3600 / weights.sum) := by
  have hi2 : i < durations.length := by omega
  constructor
  · simp [keypoint_scores, hw, Except.isOk, Except.toBool]
  · have hrowlen : (durations.getD i []).length = weights.length := by
      rw [List.getD_eq_getElem _ _ hi2, hw]
      exact hrow _ (List.getElem_mem hi2)
    rw [show keypoint_scores options n durations weights
        = Except.ok (options.zip (durations.map
            (fun row => dotRow row weights / 60 / 60 / weights.sum)))
      from by simp [keypoint_scores, hw]]
    rw [show (Except.ok (options.zip (durations.map
        (fun row => dotRow row weights / 60 / 60 / weights.sum)))
          : Except Unit (List (String × ℚ))).toOption.getD []
        = options.zip (durations.map
            (fun row => dotRow row weights / 60 / 60 / weights.sum))
      from rfl]
    rw [getD_zip _ _ i hi (by simpa using hi2)]
    have hmap : (durations.map
        (fun row => dotRow row weights / 60 / 60 / weights.sum)).getD i 0
        = dotRow (durations.getD i []) weights / 60 / 60 / weights.sum := by
      rw [List.getD_eq_getElem _ _ (by simpa using hi2),
        List.getElem_map, List.getD_eq_getElem _ _ hi2]
    rw [hmap, dotRow_eq_sum _ _ hrowlen, hw]
    have h3600 : (60 : ℚ) * (60 * weights.sum) = 3600 * weights.sum := by ring
    rw [div_div, div_div, h3600, ← div_div]

/-- Witness for C1: the spec's example durations `[[3600, 1800],
[7200, 900]]` with weights `(2, 1)`: origin 0 gets
(3600·2 + 1800·1) / 3600 / 3 hours. -/
theorem scoring_weighted_mean_C1_witness :
    (keypoint_scores [("123 Main St" : String), ("456 Oak Ave" : String)] 2
        [[3600, 1800], [7200, 900]] [2, 1]).isOk = true ∧
    ((keypoint_scores [("123 Main St" : String), ("456 Oak Ave" : String)] 2
        [[3600, 1800], [7200, 900]] [2, 1]).toOption.getD []).getD 0
        (("" : String), 0)
      = (([("123 Main St" : String), ("456 Oak Ave" : String)]).getD 0 ("" : String),
         (∑ j in Finset.range 2,
             (([[3600, 1800], [7200, 900]] : List (List ℚ)).getD 0 []).getD j 0
               * (([2, 1] : List ℚ)).getD j 0)
           / 3600 / (([2, 1] : List ℚ)).sum) := by
  exact scoring_weighted_mean_C1
    [("123 Main St" : String), ("456 Oak Ave" : String)] 2
    [[3600, 1800], [7200, 900]] [2, 1] 0
    (by decide) (by norm_num) (by decide) (by norm_num) (by decide)

/-- Counterexample to claim C6: an all-zero weight vector of the correct
length does not make the scoring step fail — numpy division by the zero
weight sum yields non-finite scores without raising — so a score mapping
is still returned, contradicting the claimed `InvalidWeightsError`. -/
theorem zero_weight_sum_C6_cex :
    (keypoint_scores [("A" : String)] 1 [[3600]] [0]).isOk = true := by
  decide

/-- Claim C6 (amended): the scoring step fails iff the weight vector's
length differs from the number n of destinations (the numpy dot product
raises, though a `ValueError`, not a dedicated `InvalidWeightsError`,
which the source never defines); a zero weight sum does not make it fail
— the division by zero yields non-finite scores and a mapping is still
returned. -/
theorem keypoint_scores_failure_iff_C6 (options : List String) (n : Nat)
    (durations : List (List ℚ)) (weights : List ℚ) :
    (keypoint_scores options n durations weights).isOk = false
      ↔ weights.length ≠ n := by
  by_cases h : weights.length = n <;>
    simp [keypoint_scores, h, Except.isOk, Except.toBool]

/-! ### Input files (`read_option_file`, `read_keypoint_file`,
lines 133–145)

```python
def read_option_file(fp):
    with open(fp) as f:
        return map(str.strip, f.readlines())

def read_keypoint_file(fp):
    with open(fp) as f:
        keypoints = []
        for l in f:
            priority_p, _, name = l.strip().partition(' ')
            keypoints.append((float(priority_p), name))
        return zip(*keypoints)
```

A file is its list of lines (terminators included), each a `List Char`. -/

/-- The whitespace characters removed by Python `str.strip()`. -/
def isPySpace (c : Char) : Bool :=
  c == ' ' || c == '\t' || c == '\n' || c == '\r' ||
    c == Char.ofNat 11 || c == Char.ofNat 12

/-- Python `str.strip()`: drop leading and trailing whitespace. -/
def pystrip (cs : List Char) : List Char :=
  ((cs.dropWhile isPySpace).reverse.dropWhile isPySpace).reverse

/-- `read_option_file` (lines 133–136): `map(str.strip, f.readlines())` —
one entry per line of the file, empty lines included. -/
def read_option_file (lines : List (List Char)) : List (List Char) :=
  lines.map pystrip

/-- Python `partition(' ')` (line 143), reduced to the two components the
source uses: the part before the first space, and the remainder after it
(empty when the line holds no space). -/
def partitionSpace : List Char → List Char × List Char
  | [] => ([], [])
  | c :: cs =>
    if c = ' ' then ([], cs)
    else
      let r := partitionSpace cs
      (c :: r.1, r.2)

/-- Numeric value of a digit string. -/
def digitsVal (cs : List Char) : Nat :=
  cs.foldl (fun a c => 10 * a + (c.toNat - 48)) 0

/-- Python `float()` on an unsigned token, restricted to plain decimal
notation: digits with at most one decimal point and at least one digit.
(The builtin additionally accepts exponent, `inf`/`nan` spellings and
surrounding whitespace, which no claim exercises.) -/
def pyfloatUnsigned (cs : List Char) : Option ℚ :=
  let ip := cs.takeWhile Char.isDigit
  let rest := cs.dropWhile Char.isDigit
  match rest with
  | [] => if ip.isEmpty then none else some ((digitsVal ip : ℚ))
  | '.' :: fp =>
    if fp.all Char.isDigit && (!ip.isEmpty || !fp.isEmpty) then
      some ((digitsVal ip : ℚ) + (digitsVal fp : ℚ) / (10 : ℚ) ^ fp.length)
    else none
  | _ => none

/-- Python `float()` (line 144): optional sign, then an unsigned decimal. -/
def pyfloat : List Char → Option ℚ
  | '+' :: rest => pyfloatUnsigned rest
  | '-' :: rest => (pyfloatUnsigned rest).map (fun q => -q)
  | cs => pyfloatUnsigned cs

/-- `read_keypoint_file` (lines 138–145): per line — strip, partition at
the first space, `float()` the first part (a Python `ValueError` aborts
the read, modelled as `none`), keep the remainder as the keypoint name;
`zip(*keypoints)` turns the pair list into (weights, names). -/
def read_keypoint_file : List (List Char) → Option (List ℚ × List (List Char))
  | [] => some ([], [])
  | l :: rest =>
    let pr := partitionSpace (pystrip l)
    match pyfloat pr.1 with
    | none => none
    | some w =>
      match read_keypoint_file rest with
      | none => none
      | some (ws, ns) => some (w :: ws, pr.2 :: ns)

lemma head?_dropWhile_false {α : Type} (p : α → Bool) (l : List α) (c : α)
    (h : (l.dropWhile p).head? = some c) : p c = false := by
  induction l with
  | nil => simp [List.dropWhile] at h
  | cons a as ih =>
    by_cases hp : p a
    · rw [List.dropWhile_cons_of_pos hp] at h
      exact ih h
    · rw [List.dropWhile_cons_of_neg hp] at h
      simp at h
      rw [← h]
      exact Bool.eq_false_iff.mpr hp

lemma getLast?_dropWhile_of_ne {α : Type} (p : α → Bool) (l : List α)
    (h : l.dropWhile p ≠ []) : (l.dropWhile p).getLast? = l.getLast? := by
  induction l with
  | nil => simp [List.dropWhile] at h
  | cons a as ih =>
    by_cases hp : p a
    · rw [List.dropWhile_cons_of_pos hp] at h ⊢
      rw [ih h]
      match as, h with
      | b :: bs, _ => rw [List.getLast?_cons_cons]
    · rw [List.dropWhile_cons_of_neg hp]

lemma pystrip_head_not_space (cs : List Char) (c : Char)
    (h : (pystrip cs).head? = some c) : isPySpace c = false := by
  unfold pystrip at h
  rw [List.head?_reverse] at h
  have hne : (cs.dropWhile isPySpace).reverse.dropWhile isPySpace ≠ [] := by
    intro hcon
    rw [hcon] at h
    simp at h
  rw [getLast?_dropWhile_of_ne _ _ hne, List.getLast?_reverse] at h
  exact head?_dropWhile_false _ _ _ h

lemma pystrip_getLast_not_space (cs : List Char) (c : Char)
    (h : (pystrip cs).getLast? = some c) : isPySpace c = false := by
  unfold pystrip at h
  rw [List.getLast?_reverse] at h
  exact head?_dropWhile_false _ _ _ h

/-- Counterexample to claim C9: a file whose middle line is empty yields
three origins, the middle one the empty string — an empty line does
contribute an origin, it is not skipped. -/
theorem option_empty_line_C9_cex :
    read_option_file [("A\n").toList, ("\n").toList, ("B").toList]
      = [("A").toList, [], ("B").toList] ∧
    read_option_file [("A\n").toList, ("\n").toList, ("B").toList]
      ≠ [("A").toList, ("B").toList] := by
  constructor <;> decide

/-- Claim C9 (amended): options-file reading returns exactly one origin
per line — empty lines included, each contributing an empty-string origin
— in file order, each line stripped of leading and trailing whitespace
(the result neither starts nor ends with a whitespace character). -/
theorem read_option_file_C9_amended (lines : List (List Char)) :
    (read_option_file lines).length = lines.length ∧
    (∀ i, i < lines.length →
      (read_option_file lines).getD i [] = pystrip (lines.getD i [])) ∧
    (∀ cs c, ((pystrip cs).head? = some c → isPySpace c = false) ∧
      ((pystrip cs).getLast? = some c → isPySpace c = false)) := by
  refine ⟨by simp [read_option_file], ?_, ?_⟩
  · intro i hi
    have hlen : i < (read_option_file lines).length := by
      simpa [read_option_file] using hi
    rw [List.getD_eq_getElem _ _ hlen, List.getD_eq_getElem _ _ hi]
    simp [read_option_file]
  · intro cs c
    exact ⟨pystrip_head_not_space cs c, pystrip_getLast_not_space cs c⟩

/-- Witness for the amended C9: the two-line file `["  A ", "\n"]`: two
origins, the first `"A"` (trimmed on both sides, not starting or ending
with whitespace), the second the empty string. -/
theorem read_option_file_C9_witness :
    (read_option_file [("  A ").toList, ("\n").toList]).length = 2 ∧
    (read_option_file [("  A ").toList, ("\n").toList]).getD 0 []
      = pystrip (([("  A ").toList, ("\n").toList]).getD 0 []) ∧
    isPySpace 'A' = false := by
  have h := read_option_file_C9_amended [("  A ").toList, ("\n").toList]
  refine ⟨h.1, h.2.1 0 (by norm_num), ?_⟩
  exact (h.2.2 (("  A ").toList) 'A').1 (by decide)

/-- Counterexample to claim C7: the line `" 1.5 Work HQ"` starts with a
space, so splitting the raw line at its first space would give the empty
first token and parsing would have to fail; instead the source strips the
line first and succeeds.  And the line `"2.0 Gym  "` keeps a remainder of
`"Gym"`: the address is trimmed of trailing whitespace, not kept as the
raw remainder of the line. -/
theorem keypoint_line_strip_C7_cex :
    read_keypoint_file [(" 1.5 Work HQ").toList, ("2.0 Gym  ").toList]
      = some ([3 / 2, 2], [("Work HQ").toList, ("Gym").toList]) := by
  rw [show read_keypoint_file [(" 1.5 Work HQ").toList, ("2.0 Gym  ").toList]
      = some ([((1 : Nat) : ℚ) + ((5 : Nat) : ℚ) / (10 : ℚ) ^ 1,
               ((2 : Nat) : ℚ) + ((0 : Nat) : ℚ) / (10 : ℚ) ^ 1],
              [("Work HQ").toList, ("Gym").toList]) from rfl]
  norm_num

/-- Claim C7 (amended): keypoint-file parsing strips each line of leading
and trailing whitespace, then splits it at the first space into a decimal
weight and the remainder as the Address (internal spaces preserved: for a
stripped line `p ++ ' ' :: nm` with no space in `p`, the address is
exactly `nm`), and fails on any line whose stripped first token is not a
valid decimal. -/
theorem keypoint_parse_C7_amended :
    (∀ p nm : List Char, ' ' ∉ p → partitionSpace (p ++ ' ' :: nm) = (p, nm)) ∧
    (∀ (lines : List (List Char)) (l : List Char), l ∈ lines →
      pyfloat (partitionSpace (pystrip l)).1 = none →
      read_keypoint_file lines = none) ∧
    (∀ (lines : List (List Char)) (ws : List ℚ) (ns : List (List Char)),
      read_keypoint_file lines = some (ws, ns) →
      ws.length = lines.length ∧ ns.length = lines.length ∧
      ∀ i, i < lines.length →
        ns.getD i [] = (partitionSpace (pystrip (lines.getD i []))).2 ∧
        pyfloat (partitionSpace (pystrip (lines.getD i []))).1
          = some (ws.getD i 0)) := by
  refine ⟨?_, ?_, ?_⟩
  · intro p nm hp
    induction p with
    | nil => simp [partitionSpace]
    | cons c cs ih =>
      have hc : ¬ c = ' ' := fun hcon => hp (by simp [hcon])
      have ih2 := ih (fun hmem => hp (by simp [hmem]))
      simp [partitionSpace, hc, ih2]
  · intro lines
    induction lines with
    | nil => intro l hl _; simp at hl
    | cons l0 rest ih =>
      intro l hl hbad
      rcases List.mem_cons.mp hl with h | h
      · subst h
        simp [read_keypoint_file, hbad]
      · rcases hfl : pyfloat (partitionSpace (pystrip l0)).1 with _ | w
        · simp [read_keypoint_file, hfl]
        · simp [read_keypoint_file, hfl, ih l h hbad]
  · intro lines
    induction lines with
    | nil =>
      intro ws ns h
      simp [read_keypoint_file] at h
      obtain ⟨h1, h2⟩ := h
      subst h1
      subst h2
      simp
    | cons l0 rest ih =>
      intro ws ns h
      rcases hfl : pyfloat (partitionSpace (pystrip l0)).1 with _ | w
      · simp [read_keypoint_file, hfl] at h
      · rcases hrest : read_keypoint_file rest with _ | ⟨ws0, ns0⟩
        · simp [read_keypoint_file, hfl, hrest] at h
        · simp [read_keypoint_file, hfl, hrest] at h
          obtain ⟨hws, hns⟩ := h
          obtain ⟨hl1, hl2, hidx⟩ := ih ws0 ns0 hrest
          subst hws
          subst hns
          refine ⟨by simp [hl1], by simp [hl2], ?_⟩
          intro i hi
          match i with
          | 0 => simp [hfl]
          | Nat.succ m =>
            simp only [List.getD_cons_succ]
            exact hidx m (by simpa using hi)

/-- Witness for the amended C7: the split characterisation at
`"2.0" ++ ' ' :: "Work HQ"`, failure on the non-decimal line `"abc"`,
and the parsed weight/name of the line `"2.0 Gym"`. -/
theorem keypoint_parse_C7_witness :
    partitionSpace (("2.0").toList ++ ' ' :: ("Work HQ").toList)
      = (("2.0").toList, ("Work HQ").toList) ∧
    read_keypoint_file [("abc").toList] = none ∧
    ([("Gym").toList] : List (List Char)).getD 0 []
      = (partitionSpace (pystrip (([("2.0 Gym").toList]).getD 0 []))).2 := by
  refine ⟨keypoint_parse_C7_amended.1 (("2.0").toList) (("Work HQ").toList)
    (by decide), ?_, ?_⟩
  · exact keypoint_parse_C7_amended.2.1 [("abc").toList] (("abc").toList)
      (by simp) (by decide)
  · refine ((keypoint_parse_C7_amended.2.2 [("2.0 Gym").toList] [2]
      [("Gym").toList] ?_).2.2 0 (by norm_num)).1
    rw [show read_keypoint_file [("2.0 Gym").toList]
        = some ([((2 : Nat) : ℚ) + ((0 : Nat) : ℚ) / (10 : ℚ) ^ 1],
                [("Gym").toList]) from rfl]
    norm_num

/-! ### Console output (the main block, lines 176–177)

```python
for k in sorted(optimized, key=lambda x: optimized[x]):
    print "%.3f%20s" % (optimized[k], k)
```
-/

/-- Three-digit zero-padded rendering of the fractional part. -/
def pad3 (n : Nat) : String :=
  if n < 10 then ("00" : String) ++ toString n
  else if n < 100 then ("0" : String) ++ toString n
  else toString n

/-- `"%.3f" % q` for nonnegative `q`: round to the nearest thousandth and
print with exactly three digits after the point.  (printf rounds the
underlying binary double half-to-even; the difference from round-half-up
is visible only at exact decimal ties, which no claim exercises.) -/
def fmt3nn (q : ℚ) : String :=
  let m : Nat := (⌊q * 1000 + 1 / 2⌋).toNat
  toString (m / 1000) ++ ("." : String) ++ pad3 (m % 1000)

/-- `"%.3f" % q`: sign, then the magnitude. -/
def fmt3 (q : ℚ) : String :=
  if q < 0 then ("-" : String) ++ fmt3nn (-q) else fmt3nn q

/-- `"%20s" % s`: right-justify — pad on the left with spaces — to a
minimum width of 20. -/
def padLeft20 (s : String) : String :=
  String.mk (List.replicate (20 - s.length) ' ') ++ s

/-- The ordering used by `sorted(optimized, key=lambda x: optimized[x])`:
ascending score. -/
def scoreLE (a b : String × ℚ) : Prop := a.2 ≤ b.2

instance : DecidableRel scoreLE := fun a b => inferInstanceAs (Decidable (a.2 ≤ b.2))

instance : IsTotal (String × ℚ) scoreLE := ⟨fun a b => le_total a.2 b.2⟩

instance : IsTrans (String × ℚ) scoreLE := ⟨fun _ _ _ h1 h2 => le_trans h1 h2⟩

/-- The lines printed by the main block (lines 176–177): the score
mapping (as an association list) sorted ascending by score, one
`"%.3f%20s"`-formatted line per entry. -/
def output_lines (scored : List (String × ℚ)) : List String :=
  (List.insertionSort scoreLE scored).map (fun p => fmt3 p.2 ++ padLeft20 p.1)

/-- Counterexample to claim C8: `%20s` right-justifies, padding the
address on the LEFT to width 20 — the claimed right-padded form is not
produced.  For score 1/2 and address `AB` the line is `0.500`, then 18
spaces, then `AB`. -/
theorem output_pad_C8_cex :
    output_lines [(("AB" : String), (1 : ℚ) / 2)]
      = [("0.500" : String) ++ String.mk (List.replicate 18 ' ')
          ++ ("AB" : String)] ∧
    output_lines [(("AB" : String), (1 : ℚ) / 2)]
      ≠ [("0.500AB                  " : String)] := by
  have hline : output_lines [(("AB" : String), (1 : ℚ) / 2)]
      = [fmt3 ((1 : ℚ) / 2) ++ padLeft20 ("AB" : String)] := rfl
  have hf : fmt3 ((1 : ℚ) / 2) = ("0.500" : String) := by
    simp only [fmt3, fmt3nn]
    rw [if_neg (by norm_num : ¬ ((1 : ℚ) / 2 < 0)),
      show ⌊(1 : ℚ) / 2 * 1000 + 1 / 2⌋ = 500 from by norm_num]
    decide
  constructor
  · rw [hline, hf]
    decide
  · rw [hline, hf]
    decide

/-- Claim C8 (amended): on success the program prints one line per entry
of the score mapping, in ascending order of score; each line is the score
rendered with exactly 3 decimal places followed by the origin address
left-padded with spaces to a minimum width of 20 (right-justified — not
right-padded). -/
theorem output_lines_C8_amended (scored : List (String × ℚ)) :
    (output_lines scored).length = scored.length ∧
    ∃ l : List (String × ℚ), List.Perm l scored ∧ List.Sorted scoreLE l ∧
      output_lines scored = l.map (fun p => fmt3 p.2 ++ padLeft20 p.1) ∧
      ∀ p ∈ l, 20 ≤ (padLeft20 p.1).length := by
  refine ⟨?_, List.insertionSort scoreLE scored,
    List.perm_insertionSort scoreLE scored,
    List.sorted_insertionSort scoreLE scored, rfl, ?_⟩
  · simp only [output_lines, List.length_map]
    exact (List.perm_insertionSort scoreLE scored).length_eq
  · intro p _
    have h1 : (String.mk (List.replicate (20 - p.1.length) ' ')).length
        = 20 - p.1.length := by
      show (List.replicate (20 - p.1.length) ' ').length = _
      simp
    simp only [padLeft20]
    rw [String.length_append, h1]
    omega

end KeyDistance
